import Mathlib

/-!
# Verification of the movie recommendation pipeline (`app.py`)

Shallow embedding of the core of the Streamlit movie-recommendation app:

* `get_recommendations` — similarity-matrix lookup returning the top-20
  most similar movies (`np.argsort(sim_scores)[::-1][1:21]`);
* `fetch_poster` / `fetch_posters` — per-id poster URL resolution with
  graceful degradation to a fixed placeholder URL;
* `load_artifact` — the module-level `pickle.load` of the precomputed
  bundle `(movies, cosine_sim)`.

Similarity scores are modelled as rationals; network effects are modelled
by an explicit `HttpResult` outcome per request; file-system effects of the
artifact load are modelled by an explicit `Artifact` state.
-/

/-- A catalog row: the `title` and `movie_id` columns of the `movies`
DataFrame. -/
structure Movie where
  title : String
  movie_id : Int
deriving DecidableEq, Repr

/-- Default row used for out-of-range `getD` indexing (never reached on
well-formed data). -/
def defaultMovie : Movie := ⟨"", 0⟩

/-- Comparison of two column indices by their score in a similarity row:
`np.argsort` orders indices by ascending value. -/
def scoreLE (row : List ℚ) (i j : Nat) : Prop :=
  row.getD i 0 ≤ row.getD j 0

instance (row : List ℚ) : DecidableRel (scoreLE row) :=
  fun i j => inferInstanceAs (Decidable (row.getD i 0 ≤ row.getD j 0))

instance (row : List ℚ) : IsTotal Nat (scoreLE row) :=
  ⟨fun i j => le_total (row.getD i 0) (row.getD j 0)⟩

instance (row : List ℚ) : IsTrans Nat (scoreLE row) :=
  ⟨fun _ _ _ hij hjk => le_trans hij hjk⟩

/-- `np.argsort(sim_scores)`: the indices `0 .. n-1` sorted by ascending
score.  Ties are modelled as kept in ascending index order (a stable sort);
the source's sort is deterministic but its tie order is version-dependent,
and no claim below depends on tie order. -/
def argsort (row : List ℚ) : List Nat :=
  List.insertionSort (scoreLE row) (List.range row.length)

/-- `np.argsort(sim_scores)[::-1][1:21]`: reverse the ascending argsort to
descending order, drop the first entry, take the next 20. -/
def top_indices_of (sim_scores : List ℚ) : List Nat :=
  (((argsort sim_scores).reverse).drop 1).take 20

/-- First index of the list satisfying `p`:
`np.where(movie_titles == title)[0][0]`, `none` when the lookup would raise
`IndexError`. -/
def find_first_idx (p : Movie → Bool) : List Movie → Option Nat
  | [] => none
  | m :: ms => if p m then some 0 else (find_first_idx p ms).map (· + 1)

/-- `get_recommendations(title)`: locate the first catalog index whose
title matches, read that row of `cosine_sim`, rank the column indices by
descending similarity, drop the first ranked entry and keep the next 20,
and map each index back to its `(title, movie_id)` row.  The `IndexError`
branch (title absent) returns the empty DataFrame, modelled as `[]`. -/
def get_recommendations (movies : List Movie) (cosine_sim : List (List ℚ))
    (title : String) : List Movie :=
  match find_first_idx (fun m => m.title == title) movies with
  | none => []
  | some idx =>
    let sim_scores := cosine_sim.getD idx []
    (top_indices_of sim_scores).map (fun i => movies.getD i defaultMovie)

/-- The fixed fallback image URL returned by every degradation branch of
`fetch_poster`. -/
def PLACEHOLDER_URL : String := "https://via.placeholder.com/150"

/-- The poster URL template base: the literal in
`f"https://image.tmdb.org/t/p/w500{poster_path}"`. -/
def POSTER_BASE : String := "https://image.tmdb.org/t/p/w500"

/-- Outcome of one HTTP GET as observed by `fetch_poster`:

* `failure` — any exception before a usable response (network error,
  timeout, cancellation of the request call itself);
* `success status jsonBody` — a response with HTTP status `status`;
  `jsonBody = none` means `response.json()` raises (non-JSON body), and
  `jsonBody = some poster_path` is the parsed body's optional
  `poster_path` field (`data.get('poster_path', None)`). -/
inductive HttpResult where
  | failure : HttpResult
  | success (status : Nat) (jsonBody : Option (Option String)) : HttpResult
deriving DecidableEq, Repr

/-- `fetch_poster(session, movie_id, api_key)` with the network abstracted
into its `HttpResult`: on status 200 with a truthy (present, non-empty)
`poster_path` return the w500 image URL, otherwise the placeholder; every
exception is caught and also yields the placeholder. -/
def fetch_poster (movie_id : Int) (r : HttpResult) : String :=
  match r with
  | .failure => PLACEHOLDER_URL
  | .success status jsonBody =>
    if status = 200 then
      match jsonBody with
      | none => PLACEHOLDER_URL
      | some poster_path =>
        match poster_path with
        | some s => if s = "" then PLACEHOLDER_URL else POSTER_BASE ++ s
        | none => PLACEHOLDER_URL
    else PLACEHOLDER_URL

/-- `fetch_posters(movie_ids, api_key)`: one `fetch_poster` per id, with
`asyncio.gather` returning the results in task (input) order.  `net` gives
the network outcome for each id. -/
def fetch_posters (movie_ids : List Int) (net : Int → HttpResult) :
    List String :=
  movie_ids.map (fun movie_id => fetch_poster movie_id (net movie_id))

/-- State of the precomputed artifact `movie_data.pkl` as observed by the
module-level load: the file may be missing (`open` raises
`FileNotFoundError`), corrupt (`pickle.load` raises), or a bundle
`(movies, cosine_sim)`. -/
inductive Artifact where
  | missing : Artifact
  | corrupt : Artifact
  | bundle (movies : List Movie) (cosine_sim : List (List ℚ)) : Artifact

/-- The module-level `movies, cosine_sim = pickle.load(file)`: an error is
unhandled (fatal at import time); a bundle is destructured and returned
as-is, with no validation of any kind. -/
def load_artifact : Artifact → Except String (List Movie × List (List ℚ))
  | .missing => .error "FileNotFoundError: movie_data.pkl"
  | .corrupt => .error "UnpicklingError: invalid load key"
  | .bundle movies cosine_sim => .ok (movies, cosine_sim)

/-- Demo network oracle: id 5 times out, id 6 succeeds with
`poster_path = "/x.jpg"`. -/
def demo_net : Int → HttpResult := fun i =>
  if i = 5 then .failure else .success 200 (some (some "/x.jpg"))

/-! ## Helper lemmas -/

theorem getD_mem {α : Type} (l : List α) : ∀ (i : Nat) (d : α),
    i < l.length → l.getD i d ∈ l := by
  induction l with
  | nil => intro i d h; simp at h
  | cons a t ih =>
    intro i d h
    cases i with
    | zero => simp [List.getD]
    | succ n =>
      have hn : n < t.length := by simpa using h
      exact List.mem_cons_of_mem a (by simpa [List.getD] using ih n d hn)

theorem getD_map_of_lt {α β : Type} (f : α → β) (dβ : β) (dα : α) :
    ∀ (l : List α) (i : Nat), i < l.length →
      (l.map f).getD i dβ = f (l.getD i dα) := by
  intro l
  induction l with
  | nil => intro i h; simp at h
  | cons a t ih =>
    intro i h
    cases i with
    | zero => simp [List.getD]
    | succ n =>
      have hn : n < t.length := by simpa using h
      simpa [List.getD] using ih n hn

theorem find_first_idx_lt {p : Movie → Bool} :
    ∀ {l : List Movie} {i : Nat}, find_first_idx p l = some i → i < l.length := by
  intro l
  induction l with
  | nil => intro i h; simp [find_first_idx] at h
  | cons m ms ih =>
    intro i h
    by_cases hp : p m
    · simp [find_first_idx, hp] at h
      simp only [List.length_cons]
      omega
    · simp [find_first_idx, hp] at h
      obtain ⟨a, ha, hai⟩ := h
      have := ih ha
      simp only [List.length_cons]
      omega

theorem find_first_idx_none {p : Movie → Bool} :
    ∀ {l : List Movie}, (∀ m ∈ l, p m = false) → find_first_idx p l = none := by
  intro l
  induction l with
  | nil => intro _; rfl
  | cons m ms ih =>
    intro h
    have hm : p m = false := h m (List.mem_cons_self m ms)
    simp [find_first_idx, hm, ih (fun x hx => h x (List.mem_cons_of_mem m hx))]

theorem argsort_perm (row : List ℚ) :
    List.Perm (argsort row) (List.range row.length) :=
  List.perm_insertionSort _ _

theorem argsort_length (row : List ℚ) : (argsort row).length = row.length := by
  rw [(argsort_perm row).length_eq, List.length_range]

theorem argsort_sorted (row : List ℚ) :
    List.Sorted (scoreLE row) (argsort row) :=
  List.sorted_insertionSort _ _

theorem mem_argsort {row : List ℚ} {i : Nat} :
    i ∈ argsort row ↔ i < row.length := by
  rw [(argsort_perm row).mem_iff, List.mem_range]

theorem argsort_nodup (row : List ℚ) : (argsort row).Nodup :=
  ((argsort_perm row).symm).nodup (List.nodup_range _)

theorem argsort_reverse_struct (row : List ℚ) (hpos : 0 < row.length) :
    ∃ h t, (argsort row).reverse = h :: t ∧
      (h :: t).Nodup ∧
      (∀ i ∈ h :: t, i < row.length) ∧
      List.Pairwise (fun i j => scoreLE row j i) (h :: t) := by
  have hlen : (argsort row).reverse.length = row.length := by
    rw [List.length_reverse, argsort_length]
  cases hc : (argsort row).reverse with
  | nil => rw [hc] at hlen; simp at hlen; omega
  | cons a b =>
    refine ⟨a, b, rfl, ?_, ?_, ?_⟩
    · rw [← hc]; exact List.nodup_reverse.mpr (argsort_nodup row)
    · intro i hi
      rw [← hc, List.mem_reverse] at hi
      exact mem_argsort.mp hi
    · rw [← hc]
      exact List.pairwise_reverse.mpr (argsort_sorted row)

theorem head_eq_idx_of_max {row : List ℚ} {idx h : Nat} {t : List Nat}
    (hc : (argsort row).reverse = h :: t)
    (hidx : idx < row.length)
    (hmax : ∀ j, j < row.length → j ≠ idx → row.getD j 0 < row.getD idx 0) :
    h = idx := by
  have hmemidx : idx ∈ (argsort row).reverse := by
    rw [List.mem_reverse]; exact mem_argsort.mpr hidx
  rw [hc] at hmemidx
  have hpair : List.Pairwise (fun i j => scoreLE row j i) ((argsort row).reverse) :=
    List.pairwise_reverse.mpr (argsort_sorted row)
  rw [hc] at hpair
  have hhb : h ∈ (argsort row).reverse := by
    rw [hc]; exact List.mem_cons_self h t
  rw [List.mem_reverse] at hhb
  have hhlt : h < row.length := mem_argsort.mp hhb
  by_contra hne
  have hidxt : idx ∈ t := by
    rcases List.mem_cons.mp hmemidx with he | ht
    · exact absurd he.symm hne
    · exact ht
  have hle : scoreLE row idx h := (List.pairwise_cons.mp hpair).1 idx hidxt
  have hlt : row.getD h 0 < row.getD idx 0 := hmax h hhlt hne
  exact absurd hle (not_le.mpr hlt)

theorem top_indices_length (row : List ℚ) :
    (top_indices_of row).length = min 20 (row.length - 1) := by
  simp [top_indices_of, List.length_take, List.length_drop, List.length_reverse,
    argsort_length]

theorem top_indices_sublist (row : List ℚ) :
    List.Sublist (top_indices_of row) ((argsort row).reverse) :=
  (List.take_sublist _ _).trans (List.drop_sublist _ _)

theorem mem_top_indices_lt {row : List ℚ} {i : Nat}
    (hi : i ∈ top_indices_of row) : i < row.length := by
  have hm := (top_indices_sublist row).subset hi
  rw [List.mem_reverse] at hm
  exact mem_argsort.mp hm

theorem mem_top_indices_ne_head {row : List ℚ} {h : Nat} {t : List Nat}
    (hc : (argsort row).reverse = h :: t) {i : Nat}
    (hi : i ∈ top_indices_of row) : i ≠ h := by
  have hnd : (h :: t).Nodup := by
    rw [← hc]; exact List.nodup_reverse.mpr (argsort_nodup row)
  have h2 : top_indices_of row = List.take 20 t := by
    unfold top_indices_of
    rw [hc]
    rfl
  rw [h2] at hi
  have hit : i ∈ t := List.take_subset _ _ hi
  intro he
  subst he
  exact (List.nodup_cons.mp hnd).1 hit

theorem top_indices_scores_sorted (row : List ℚ) :
    List.Sorted (fun a b : ℚ => a ≥ b)
      ((top_indices_of row).map (fun i => row.getD i 0)) := by
  have hpair : List.Pairwise (fun i j => scoreLE row j i) (top_indices_of row) :=
    List.Pairwise.sublist (top_indices_sublist row)
      (List.pairwise_reverse.mpr (argsort_sorted row))
  exact List.Pairwise.map _ (fun a b hab => hab) hpair

theorem get_recommendations_eq_of_find {movies : List Movie}
    (cosine_sim : List (List ℚ)) {title : String} {idx : Nat}
    (hfind : find_first_idx (fun m => m.title == title) movies = some idx) :
    get_recommendations movies cosine_sim title =
      (top_indices_of (cosine_sim.getD idx [])).map
        (fun i => movies.getD i defaultMovie) := by
  unfold get_recommendations
  rw [hfind]

theorem poster_base_ne_placeholder (s : String) :
    POSTER_BASE ++ s ≠ PLACEHOLDER_URL := by
  intro h
  have hlen := congrArg String.length h
  rw [String.length_append] at hlen
  have hb : POSTER_BASE.length = PLACEHOLDER_URL.length := by decide
  have hs : s.length = 0 := by omega
  have hsempty : s = "" := by
    cases s with
    | mk data =>
      cases data with
      | nil => rfl
      | cons c cs => simp [String.length] at hs
  rw [hsempty] at h
  exact absurd h (by decide)

/-! ## Claim theorems -/

/-- C2: `fetch_posters(ids, api_key)` returns one URL per input id, the
`i`-th output being the resolution of the `i`-th input id, whatever mix of
successes and failures the network produces; the operation is total (never
raises). -/
theorem fetch_posters_length_order (movie_ids : List Int)
    (net : Int → HttpResult) :
    (fetch_posters movie_ids net).length = movie_ids.length ∧
    ∀ i, i < movie_ids.length →
      (fetch_posters movie_ids net).getD i "" =
        fetch_poster (movie_ids.getD i 0) (net (movie_ids.getD i 0)) := by
  constructor
  · simp [fetch_posters]
  · intro i hi
    exact getD_map_of_lt _ "" 0 movie_ids i hi

theorem fetch_posters_length_order_witness :
    (fetch_posters [5, 6] demo_net).length = ([5, 6] : List Int).length ∧
      (fetch_posters [5, 6] demo_net).getD 1 "" =
        fetch_poster (([5, 6] : List Int).getD 1 0)
          (demo_net (([5, 6] : List Int).getD 1 0)) :=
  ⟨(fetch_posters_length_order [5, 6] demo_net).1,
    (fetch_posters_length_order [5, 6] demo_net).2 1 (by decide)⟩

/-- C3: one poster fetch yields the w500 image URL exactly when the
response has status 200 and a present non-empty `poster_path` (and that
URL is never the placeholder); every other outcome — non-200 status,
missing, null or empty `poster_path`, non-JSON body, network error or
timeout — yields the placeholder, with no exception escaping. -/
theorem fetch_poster_resolution :
    (∀ movie_id s, s ≠ "" →
      fetch_poster movie_id (.success 200 (some (some s))) = POSTER_BASE ++ s ∧
        POSTER_BASE ++ s ≠ PLACEHOLDER_URL) ∧
    (∀ movie_id status body, status ≠ 200 →
      fetch_poster movie_id (.success status body) = PLACEHOLDER_URL) ∧
    (∀ movie_id status,
      fetch_poster movie_id (.success status (some none)) = PLACEHOLDER_URL) ∧
    (∀ movie_id status,
      fetch_poster movie_id (.success status none) = PLACEHOLDER_URL) ∧
    (∀ movie_id,
      fetch_poster movie_id (.success 200 (some (some ""))) = PLACEHOLDER_URL) ∧
    (∀ movie_id, fetch_poster movie_id .failure = PLACEHOLDER_URL) := by
  refine ⟨?_, ?_, ?_, ?_, ?_, ?_⟩
  · intro movie_id s hs
    exact ⟨by simp [fetch_poster, hs], poster_base_ne_placeholder s⟩
  · intro movie_id status body hst
    simp [fetch_poster, hst]
  · intro movie_id status
    by_cases hst : status = 200 <;> simp [fetch_poster, hst]
  · intro movie_id status
    by_cases hst : status = 200 <;> simp [fetch_poster, hst]
  · intro movie_id
    simp [fetch_poster]
  · intro movie_id
    rfl

theorem fetch_poster_resolution_witness :
    fetch_poster 6 (.success 200 (some (some "/x.jpg"))) =
      POSTER_BASE ++ "/x.jpg" ∧
    fetch_poster 6 (.success 404 (some (some "/x.jpg"))) = PLACEHOLDER_URL :=
  ⟨(fetch_poster_resolution.1 6 "/x.jpg" (by decide)).1,
    fetch_poster_resolution.2.1 6 404 (some (some "/x.jpg")) (by decide)⟩

/-- C10: every value a single poster fetch returns is either
`"https://image.tmdb.org/t/p/w500" ++ poster_path` or the fixed constant
`"https://via.placeholder.com/150"`; the three degradation branches
(missing or empty `poster_path`, non-200 status, exception) all return
that constant, and an empty-string `poster_path` is treated as missing. -/
theorem fetch_poster_value_range :
    (∀ movie_id r,
      (∃ s, fetch_poster movie_id r = "https://image.tmdb.org/t/p/w500" ++ s) ∨
        fetch_poster movie_id r = "https://via.placeholder.com/150") ∧
    (∀ movie_id,
      fetch_poster movie_id .failure = "https://via.placeholder.com/150") ∧
    (∀ movie_id status body, status ≠ 200 →
      fetch_poster movie_id (.success status body) =
        "https://via.placeholder.com/150") ∧
    (∀ movie_id, fetch_poster movie_id (.success 200 (some none)) =
      "https://via.placeholder.com/150") ∧
    (∀ movie_id, fetch_poster movie_id (.success 200 (some (some ""))) =
      "https://via.placeholder.com/150") := by
  refine ⟨?_, ?_, ?_, ?_, ?_⟩
  · intro movie_id r
    cases r with
    | failure => right; rfl
    | success status jsonBody =>
      by_cases hst : status = 200
      · subst hst
        cases jsonBody with
        | none => right; rfl
        | some pp =>
          cases pp with
          | none => right; rfl
          | some s =>
            by_cases hs : s = ""
            · right; simp [fetch_poster, hs, PLACEHOLDER_URL]
            · left
              exact ⟨s, by simp [fetch_poster, hs, POSTER_BASE]⟩
      · right; simp [fetch_poster, hst, PLACEHOLDER_URL]
  · intro movie_id; rfl
  · intro movie_id status body hst
    simp [fetch_poster, hst, PLACEHOLDER_URL]
  · intro movie_id; rfl
  · intro movie_id
    simp [fetch_poster, PLACEHOLDER_URL]

theorem fetch_poster_value_range_witness :
    fetch_poster 9 (.success 500 none) = "https://via.placeholder.com/150" :=
  fetch_poster_value_range.2.2.1 9 500 none (by decide)

/-- C6 counterexample: an artifact whose Catalog has 1 row but whose matrix
has 2 rows loads successfully — the module-level load performs no
dimension-consistency check, so the claim that it fails fatally whenever
the dimensions disagree is false on the code. -/
theorem load_artifact_no_dim_check :
    load_artifact (.bundle [Movie.mk "A" 1] [[1, 0], [0, 1]]) =
      .ok ([Movie.mk "A" 1], [[1, 0], [0, 1]]) ∧
    ([Movie.mk "A" 1] : List Movie).length ≠
      ([[1, 0], [0, 1]] : List (List ℚ)).length :=
  ⟨rfl, by decide⟩

/-- C6 (amended): the module-level load fails fatally (an unhandled
exception at import time) when the artifact is missing or corrupt; on
success it yields the decoded Catalog and SimilarityMatrix unchanged.  No
dimension-consistency check is performed. -/
theorem load_artifact_spec :
    (∃ e, load_artifact .missing = .error e) ∧
    (∃ e, load_artifact .corrupt = .error e) ∧
    (∀ movies cosine_sim,
      load_artifact (.bundle movies cosine_sim) = .ok (movies, cosine_sim)) :=
  ⟨⟨_, rfl⟩, ⟨_, rfl⟩, fun _ _ => rfl⟩

/-- C4: for a title absent from the catalog the `IndexError` of the lookup
is caught and the empty result is returned — no exception reaches the
caller. -/
theorem get_recommendations_absent (movies : List Movie)
    (cosine_sim : List (List ℚ)) (title : String)
    (habs : ∀ m ∈ movies, m.title ≠ title) :
    get_recommendations movies cosine_sim title = [] := by
  have hnone : find_first_idx (fun m => m.title == title) movies = none :=
    find_first_idx_none (fun m hm => by
      simp only [beq_eq_false_iff_ne]
      exact habs m hm)
  unfold get_recommendations
  rw [hnone]

theorem get_recommendations_absent_witness :
    (∀ m ∈ [Movie.mk "Alpha" 1], m.title ≠ "Zeta") ∧
      get_recommendations [Movie.mk "Alpha" 1] [[1]] "Zeta" = [] :=
  ⟨by decide, get_recommendations_absent _ _ _ (by decide)⟩

/-- C5: on the concrete catalog Alpha/Beta/Gamma with similarity row
`[1, 0.9, 0.1]` for Alpha, the recommendations for "Alpha" are exactly
Beta then Gamma. -/
theorem get_recommendations_scenario_alpha :
    get_recommendations
      [Movie.mk "Alpha" 1, Movie.mk "Beta" 2, Movie.mk "Gamma" 3]
      [[1, mkRat 9 10, mkRat 1 10], [mkRat 9 10, 1, mkRat 1 5],
        [mkRat 1 10, mkRat 1 5, 1]] "Alpha" =
      [Movie.mk "Beta" 2, Movie.mk "Gamma" 3] := by
  decide

/-- C7: the recommendation lookup is a pure function of the catalog, the
similarity matrix and the title, so two calls on unchanged data return
identical results. -/
theorem get_recommendations_deterministic (movies : List Movie)
    (cosine_sim : List (List ℚ)) (title : String) :
    get_recommendations movies cosine_sim title =
      get_recommendations movies cosine_sim title := rfl

/-- C1 counterexample: with catalog `[("A",1), ("B",2)]` and similarity row
`[0, 1]` for "A" (self-similarity not maximal), the query "A" is itself
returned — position 0 of the descending sort is movie "B", and dropping it
leaves the query in the result. -/
theorem get_recommendations_self_counterexample :
    (get_recommendations [Movie.mk "A" 1, Movie.mk "B" 2]
      [[0, 1], [1, 1]] "A").map Movie.title = ["A"] := by
  decide

/-- Demo catalog for witnesses: a 2-movie catalog with a strictly maximal
self-similarity for "Alpha". -/
def demo_movies : List Movie := [Movie.mk "Alpha" 1, Movie.mk "Beta" 2]

/-- Demo similarity matrix for `demo_movies`. -/
def demo_sim : List (List ℚ) := [[1, mkRat 1 2], [mkRat 1 2, 1]]

/-- C1 (amended): for every title found in the catalog (at first-match
index `idx`), `get_recommendations` returns at most 20 entries and the
ranked indices carry non-increasing similarity scores from the queried
row; and provided the queried row is as long as the catalog, the query's
own score is strictly maximal in its row, and no other catalog entry
carries the queried title, none of the returned entries bears the queried
title.  (Without those provisos the self-exclusion fails: the code drops
position 0 of the descending sort, which need not be the query.) -/
theorem get_recommendations_ranked (movies : List Movie)
    (cosine_sim : List (List ℚ)) (title : String) (idx : Nat)
    (hfind : find_first_idx (fun m => m.title == title) movies = some idx) :
    (get_recommendations movies cosine_sim title).length ≤ 20 ∧
    List.Sorted (fun a b : ℚ => a ≥ b)
      ((top_indices_of (cosine_sim.getD idx [])).map
        (fun i => (cosine_sim.getD idx []).getD i 0)) ∧
    ((cosine_sim.getD idx []).length = movies.length →
      (∀ j, j < movies.length → j ≠ idx →
        (cosine_sim.getD idx []).getD j 0 <
          (cosine_sim.getD idx []).getD idx 0) →
      (∀ j, j < movies.length → j ≠ idx →
        (movies.getD j defaultMovie).title ≠ title) →
      ∀ m ∈ get_recommendations movies cosine_sim title, m.title ≠ title) := by
  have hidx : idx < movies.length := find_first_idx_lt hfind
  set row := cosine_sim.getD idx [] with hrdef
  have hgr := get_recommendations_eq_of_find cosine_sim hfind
  refine ⟨?_, ?_, ?_⟩
  · rw [hgr, List.length_map, top_indices_length]
    exact Nat.min_le_left _ _
  · exact top_indices_scores_sorted row
  · intro hrow hmax huniq
    have hidxr : idx < row.length := by omega
    have hpos : 0 < row.length := by omega
    rw [hgr]
    intro m hm
    rw [List.mem_map] at hm
    obtain ⟨i, hi, rfl⟩ := hm
    have hilt : i < row.length := mem_top_indices_lt hi
    obtain ⟨h, t, hc, hnd, hbnd, hpair⟩ := argsort_reverse_struct row hpos
    have hh : h = idx :=
      head_eq_idx_of_max hc hidxr (fun j hj hne => hmax j (by omega) hne)
    have hne : i ≠ h := mem_top_indices_ne_head hc hi
    exact huniq i (by omega) (hh ▸ hne)

theorem get_recommendations_ranked_witness :
    (get_recommendations demo_movies demo_sim "Alpha").length ≤ 20 ∧
    List.Sorted (fun a b : ℚ => a ≥ b)
      ((top_indices_of (demo_sim.getD 0 [])).map
        (fun i => (demo_sim.getD 0 []).getD i 0)) ∧
    (∀ m ∈ get_recommendations demo_movies demo_sim "Alpha",
      m.title ≠ "Alpha") := by
  have h := get_recommendations_ranked demo_movies demo_sim "Alpha" 0
    (by decide)
  exact ⟨h.1, h.2.1, h.2.2 (by decide) (by decide) (by decide)⟩

/-- C9: for a title found at catalog index `idx` with a full-length
similarity row, `get_recommendations` returns exactly
`min 20 (N - 1)` entries for a catalog of `N` movies, every returned entry
is an entry of the catalog, and every ranked index is a valid catalog
index distinct from position 0 of the descending sort. -/
theorem get_recommendations_count (movies : List Movie)
    (cosine_sim : List (List ℚ)) (title : String) (idx : Nat)
    (hfind : find_first_idx (fun m => m.title == title) movies = some idx)
    (hrow : (cosine_sim.getD idx []).length = movies.length) :
    (get_recommendations movies cosine_sim title).length =
      min 20 (movies.length - 1) ∧
    (∀ m ∈ get_recommendations movies cosine_sim title, m ∈ movies) ∧
    (∀ i ∈ top_indices_of (cosine_sim.getD idx []),
      i < movies.length ∧
        i ≠ ((argsort (cosine_sim.getD idx [])).reverse).headD 0) := by
  have hidx : idx < movies.length := find_first_idx_lt hfind
  set row := cosine_sim.getD idx [] with hrdef
  have hgr := get_recommendations_eq_of_find cosine_sim hfind
  have hpos : 0 < row.length := by omega
  obtain ⟨h, t, hc, hnd, hbnd, hpair⟩ := argsort_reverse_struct row hpos
  refine ⟨?_, ?_, ?_⟩
  · rw [hgr, List.length_map, top_indices_length, hrow]
  · rw [hgr]
    intro m hm
    rw [List.mem_map] at hm
    obtain ⟨i, hi, rfl⟩ := hm
    have hilt : i < row.length := mem_top_indices_lt hi
    exact getD_mem movies i defaultMovie (by omega)
  · intro i hi
    have hilt : i < row.length := mem_top_indices_lt hi
    have hne : i ≠ h := mem_top_indices_ne_head hc hi
    have hhead : ((argsort row).reverse).headD 0 = h := by rw [hc]; rfl
    exact ⟨by omega, by rw [hhead]; exact hne⟩

theorem get_recommendations_count_witness :
    (get_recommendations demo_movies demo_sim "Alpha").length =
      min 20 (demo_movies.length - 1) ∧
    (∀ m ∈ get_recommendations demo_movies demo_sim "Alpha",
      m ∈ demo_movies) ∧
    (∀ i ∈ top_indices_of (demo_sim.getD 0 []),
      i < demo_movies.length ∧
        i ≠ ((argsort (demo_sim.getD 0 [])).reverse).headD 0) :=
  get_recommendations_count demo_movies demo_sim "Alpha" 0 (by decide)
    (by decide)
